import Mathlib

/-!
Verification development for the YamuraPyrometer measurement core.

The repository ships `src/YamuraPyrometer.h`: configuration constants, the
data-model declarations (`CarSettings`, `MenuChoice`, `UserButton`,
`tireTemps[18]`, `tempValues[100]`, `tempRes`, `deviceState`, ...) and the
prototypes of the core routines (`CheckButtons`, `MenuSelect`,
`GetStableTemp`, `GetNextTire`, `MeasureAllTireTemps`).  The bodies of those
routines are not part of the sources, so each is modelled here from the
specification, over the data shapes the header does declare.  Temperatures
(`float` in the source) are modelled as exact rationals.
-/

namespace Yamura

/-- From src line 50: `#define MAX_MENU_ITEMS 100`. -/
def MAX_MENU_ITEMS : Nat := 100

/-- From src line 52: `#define DISPLAY_MENU 0` (main-menu display mode code). -/
def DISPLAY_MENU : Int := 0

/-- From src lines 187-188: `int deviceState = 0;` with the comment
"initial state of pyrometer (show main menu)". -/
def deviceState : Int := 0

/-- From src line 95: `#define BUTTON_DEBOUNCE_DELAY 20` (milliseconds). -/
def BUTTON_DEBOUNCE_DELAY : Nat := 20

/-- From src line 160: `float tempValues[100];` — capacity of the buffer of
recent raw samples used for the stabilization calculation. -/
def TEMP_WINDOW_CAPACITY : Nat := 100

/-- From src line 186: `float tempRes = 1.0;` — default resolution threshold
for the stabilization test. -/
def tempRes : ℚ := 1

/-- From src line 89: `#define BUTTON_COUNT 3`. -/
def BUTTON_COUNT : Nat := 3

/-! ## StabilizationSampler -/

/-- Result of one `offer` call to the stabilization sampler. -/
inductive SampleResult where
  | Pending : SampleResult
  | Stable : ℚ → SampleResult
deriving DecidableEq

/-- State of the stabilization sampler: the recent raw samples, newest
first (the `tempValues` buffer together with its running count). -/
structure SamplerState where
  window : List ℚ
deriving DecidableEq

/-- Maximum of a sample list (0 for an empty list, which never feeds the
stability test). -/
def listMax : List ℚ → ℚ
  | [] => 0
  | x :: xs => xs.foldl max x

/-- Minimum of a sample list (0 for an empty list). -/
def listMin : List ℚ → ℚ
  | [] => 0
  | x :: xs => xs.foldl min x

/-- Spread of a sample list: max − min. -/
def spread (w : List ℚ) : ℚ := listMax w - listMin w

/-- Arithmetic mean of a sample list. -/
def mean (w : List ℚ) : ℚ := w.sum / w.length

/-- Modelled from the spec: the body of `GetStableTemp` is absent from src/
(only its prototype, src line 231, and the buffer `tempValues[100]` are
declared).  Spec §4.3: each call appends the sample to a bounded circular
window (capacity 100, oldest evicted when full); once the window holds at
least `minCount` samples, the spread (max − min) of the `minCount` most
recent samples is compared with the resolution threshold; if it is within
the threshold the reading is Stable with value the arithmetic mean of that
recent window, otherwise Pending. -/
def offer (minCount : Nat) (threshold : ℚ) (s : SamplerState) (sample : ℚ) :
    SamplerState × SampleResult :=
  let w := (sample :: s.window).take TEMP_WINDOW_CAPACITY
  if minCount ≤ w.length then
    if spread (w.take minCount) ≤ threshold then
      (⟨w⟩, SampleResult.Stable (mean (w.take minCount)))
    else (⟨w⟩, SampleResult.Pending)
  else (⟨w⟩, SampleResult.Pending)

/-- Sampler state after offering a whole stream of samples in order. -/
def runSampler (minCount : Nat) (threshold : ℚ) (s : SamplerState) :
    List ℚ → SamplerState
  | [] => s
  | x :: xs => runSampler minCount threshold (offer minCount threshold s x).1 xs

/-- Results of offering a whole stream of samples in order. -/
def offerRun (minCount : Nat) (threshold : ℚ) (s : SamplerState) :
    List ℚ → List SampleResult
  | [] => []
  | x :: xs =>
    (offer minCount threshold s x).2 ::
      offerRun minCount threshold (offer minCount threshold s x).1 xs

/-! ## GetNextTire -/

/-- Modelled from the spec: the body of `GetNextTire` is absent from src/
(only its prototype `int GetNextTire(int selTire, int nextDirection)`, src
line 232).  Spec §4.4: advances/retreats the tire pointer, never exceeding
`[0, tireCount-1]`; attempting to move below 0 or above `tireCount-1` is a
clamped no-op. -/
def GetNextTire (tireCount : Int) (selTire : Int) (nextDirection : Int) : Int :=
  if selTire + nextDirection < 0 then 0
  else if tireCount - 1 < selTire + nextDirection then tireCount - 1
  else selTire + nextDirection

/-! ## ButtonDebouncer -/

/-- Transient per-channel per-tick event (spec §3, ButtonEvent). -/
inductive ButtonEvent where
  | None : ButtonEvent
  | Pressed : ButtonEvent
  | Released : ButtonEvent
  | LongPress : ButtonEvent
deriving DecidableEq

/-- Button debounce channel, from the `UserButton` struct of src lines
129-138: `buttonLast` is the last-seen raw level, `lastChange` the
timestamp of the last raw-level change (the pending-change timer),
`buttonPressed` the confirmed logical state.  `pressStart` and
`longPressSent` carry the press-duration bookkeeping the struct keeps in
`pressDuration`, as needed for the once-per-press long-press event. -/
structure UserButton where
  buttonLast : Bool
  lastChange : Nat
  buttonPressed : Bool
  pressStart : Nat
  longPressSent : Bool
deriving DecidableEq

/-- Modelled from the spec: the body of `CheckButtons` is absent from src/
(only its prototype, src line 263, and the `UserButton` struct).  Spec
§4.1: if the raw level differs from the last-seen raw level, the
pending-change timer resets to `now`; once the level has remained stable
for the whole debounce interval and differs from the confirmed state, the
confirmed state flips and Pressed/Released is emitted exactly once; while
confirmed-Pressed, once the press duration exceeds the long-press
threshold a LongPress is emitted once per press. -/
def advanceButton (longPressThreshold : Nat) (b : UserButton) (rawLevel : Bool)
    (now : Nat) : UserButton × ButtonEvent :=
  if rawLevel ≠ b.buttonLast then
    ({ b with buttonLast := rawLevel, lastChange := now }, ButtonEvent.None)
  else if rawLevel ≠ b.buttonPressed ∧ BUTTON_DEBOUNCE_DELAY ≤ now - b.lastChange then
    if rawLevel then
      ({ b with buttonPressed := true, pressStart := now, longPressSent := false },
        ButtonEvent.Pressed)
    else ({ b with buttonPressed := false }, ButtonEvent.Released)
  else if b.buttonPressed ∧ ¬ b.longPressSent ∧ longPressThreshold ≤ now - b.pressStart then
    ({ b with longPressSent := true }, ButtonEvent.LongPress)
  else (b, ButtonEvent.None)

/-- Advance one channel over a timed raw-level sequence, collecting the
emitted events. -/
def buttonRun (longPressThreshold : Nat) (b : UserButton) :
    List (Bool × Nat) → UserButton × List ButtonEvent
  | [] => (b, [])
  | (lvl, t) :: rest =>
    let step := advanceButton longPressThreshold b lvl t
    let tail := buttonRun longPressThreshold step.1 rest
    (tail.1, step.2 :: tail.2)

/-! ## SelectionEngine -/

/-- From the `MenuChoice` struct of src lines 113-117: a label plus an
opaque result code. -/
structure MenuChoice where
  description : String
  result : Int
deriving DecidableEq

/-- Button events as consumed by the selection engine: forward, backward,
confirm, or anything it does not recognize. -/
inductive MenuEvent where
  | Forward : MenuEvent
  | Backward : MenuEvent
  | Confirm : MenuEvent
  | Other : MenuEvent
deriving DecidableEq

/-- Selection state: highlighted index plus the confirmed result code once
the interaction is terminal (spec §3, SelectionState). -/
structure SelectionState where
  index : Nat
  confirmedResult : Option Int
deriving DecidableEq

/-- Modelled from the spec: the body of `MenuSelect` is absent from src/
(only its prototype `int MenuSelect(int fontSize, MenuChoice choices[],
int menuCount, int initialSelect)`, src line 213).  Spec §4.2: one button
moves the highlighted index forward, one backward, one confirms; index
movement clamps at 0 and `len(menu)-1` (no wraparound); confirm emits the
highlighted choice's result code and makes the interaction terminal;
unrecognized events are no-ops. -/
def menuStep (menu : List MenuChoice) (st : SelectionState) (e : MenuEvent) :
    SelectionState :=
  match st.confirmedResult with
  | some _ => st
  | none =>
    match e with
    | MenuEvent.Forward => { st with index := min (st.index + 1) (menu.length - 1) }
    | MenuEvent.Backward => { st with index := st.index - 1 }
    | MenuEvent.Confirm =>
        { st with confirmedResult := (menu.get? st.index).map MenuChoice.result }
    | MenuEvent.Other => st

/-- A concrete two-entry menu (main-menu entries `MEASURE_TIRES = 2` and
`SET_EXIT = 9` from src lines 54 and 70), used to exercise the engine on a
closed instance. -/
def sampleMenu : List MenuChoice :=
  [⟨"Measure Temps", 2⟩, ⟨"Exit", 9⟩]

/-- All states passed through while feeding an event sequence to the
selection engine (initial state included). -/
def menuTrace (menu : List MenuChoice) (st : SelectionState) :
    List MenuEvent → List SelectionState
  | [] => [st]
  | e :: es => st :: menuTrace menu (menuStep menu st e) es

/-! ## GridTraversal -/

/-- Phases of one measurement session (spec §4.4):
SelectCell → Sampling → accepted cell → (next cell | SessionComplete),
with Aborted terminal. -/
inductive SessionPhase where
  | SelectCell : SessionPhase
  | Sampling : SessionPhase
  | SessionComplete : SessionPhase
  | Aborted : SessionPhase
deriving DecidableEq

/-- Session configuration: the active `CarSettings` counts (src lines
100-112: `tireCount`, `positionCount`) together with the sampler
parameters and the sensor retry bound. -/
structure SessionCfg where
  tireCount : Nat
  positionCount : Nat
  minCount : Nat
  threshold : ℚ
  retryBound : Nat

/-- State of one measurement session: cell pointer, the reading matrix
(the `tireTemps[18]` slots of src line 146, indexed row-major as
`tire * positionCount + position`, `none` = Unset), phase, the per-cell
sampler, the consecutive sensor-error count, and whether the completed
session was handed to the persistence collaborator
(`WriteMeasurementFile`, src line 225). -/
structure GridState where
  tire : Nat
  position : Nat
  matrix : Nat → Option ℚ
  phase : SessionPhase
  sampler : SamplerState
  errorCount : Nat
  saveInvoked : Bool

/-- Inputs consumed by the session state machine, one per tick: confirm
the current cell, navigate the tire pointer, a sensor reading (`none` =
sensor Error), cancel the current cell (LongPress), or abort the session. -/
inductive GridInput where
  | confirm : GridInput
  | navTire : Int → GridInput
  | reading : Option ℚ → GridInput
  | cancel : GridInput
  | abort : GridInput
deriving DecidableEq

/-- Write the accepted value into the current cell of the reading matrix. -/
def writeCell (cfg : SessionCfg) (s : GridState) (v : ℚ) : GridState :=
  { s with matrix := fun i =>
      if i = s.tire * cfg.positionCount + s.position then some v else s.matrix i }

/-- Advance the cell pointer row-major over positions within each tire,
then to the next tire; once all cells are filled the session is complete
and the matrix is handed to the persistence collaborator (spec §4.4,
CellAccepted). -/
def advanceCell (cfg : SessionCfg) (s : GridState) : GridState :=
  if s.position + 1 < cfg.positionCount then
    { s with
        position := s.position + 1
        phase := SessionPhase.SelectCell
        sampler := ⟨[]⟩
        errorCount := 0 }
  else if s.tire + 1 < cfg.tireCount then
    { s with
        tire := s.tire + 1
        position := 0
        phase := SessionPhase.SelectCell
        sampler := ⟨[]⟩
        errorCount := 0 }
  else
    { s with phase := SessionPhase.SessionComplete, saveInvoked := true }

/-- One Sampling-phase tick on a valid sensor reading: offer it to the
stabilization sampler; on Pending keep sampling, on Stable write the value
into the current cell and advance (spec §4.4, Sampling/CellAccepted). -/
def applySample (cfg : SessionCfg) (s : GridState) (v : ℚ) : GridState :=
  match offer cfg.minCount cfg.threshold s.sampler v with
  | (sp, SampleResult.Pending) => { s with sampler := sp }
  | (_, SampleResult.Stable val) => advanceCell cfg (writeCell cfg s val)

/-- One Sampling-phase tick on a sensor Error: the sampler is not fed;
the tick is skipped and retried, until the bounded retry count is
exhausted, at which point the cell acquisition is abandoned back to
SelectCell with the cell left Unset (spec §6, sensor source). -/
def sensorErrorTick (cfg : SessionCfg) (s : GridState) : GridState :=
  if cfg.retryBound ≤ s.errorCount + 1 then
    { s with
        phase := SessionPhase.SelectCell
        sampler := ⟨[]⟩
        errorCount := 0 }
  else { s with errorCount := s.errorCount + 1 }

/-- SelectCell-phase input handling: confirm starts sampling the current
cell with a re-armed sampler, navigation moves the tire pointer through
`GetNextTire`, abort is terminal (spec §4.4, SelectCell). -/
def selectCellTick (cfg : SessionCfg) (s : GridState) (inp : GridInput) : GridState :=
  match inp with
  | GridInput.abort => { s with phase := SessionPhase.Aborted }
  | GridInput.confirm =>
      { s with phase := SessionPhase.Sampling, sampler := ⟨[]⟩, errorCount := 0 }
  | GridInput.navTire dir =>
      { s with tire := (GetNextTire cfg.tireCount s.tire dir).toNat }
  | _ => s

/-- Sampling-phase input handling: a valid reading feeds the sampler, a
sensor Error is skipped with bounded retry, cancel abandons the current
cell without writing, abort is terminal (spec §4.4, Sampling). -/
def samplingTick (cfg : SessionCfg) (s : GridState) (inp : GridInput) : GridState :=
  match inp with
  | GridInput.abort => { s with phase := SessionPhase.Aborted }
  | GridInput.cancel =>
      { s with phase := SessionPhase.SelectCell, sampler := ⟨[]⟩, errorCount := 0 }
  | GridInput.reading none => sensorErrorTick cfg s
  | GridInput.reading (some v) => applySample cfg s v
  | _ => s

/-- Modelled from the spec: the body of `MeasureAllTireTemps` is absent
from src/ (only its prototype, src line 229, and the `tireTemps` storage).
One tick of the session state machine of spec §4.4: the terminal phases
ignore all input; SelectCell and Sampling dispatch to their input
handlers. -/
def gridTick (cfg : SessionCfg) (s : GridState) (inp : GridInput) : GridState :=
  match s.phase with
  | SessionPhase.SessionComplete => s
  | SessionPhase.Aborted => s
  | SessionPhase.SelectCell => selectCellTick cfg s inp
  | SessionPhase.Sampling => samplingTick cfg s inp

/-- Session state at power-on of a measurement session: first cell, all 18
slots Unset, nothing persisted. -/
def initGrid : GridState :=
  { tire := 0, position := 0, matrix := fun _ => none,
    phase := SessionPhase.SelectCell, sampler := ⟨[]⟩, errorCount := 0,
    saveInvoked := false }

/-- Run the session state machine over a whole input sequence. -/
def gridRun (cfg : SessionCfg) (s : GridState) : List GridInput → GridState
  | [] => s
  | i :: rest => gridRun cfg (gridTick cfg s i) rest

/-- Does this tick accept the current cell (sampler returns Stable on a
valid reading while Sampling)? -/
def tickAccepts (cfg : SessionCfg) (s : GridState) : GridInput → Bool
  | GridInput.reading (some v) =>
    match s.phase with
    | SessionPhase.Sampling =>
      match (offer cfg.minCount cfg.threshold s.sampler v).2 with
      | SampleResult.Stable _ => true
      | SampleResult.Pending => false
    | _ => false
  | _ => false

/-- The (tire, position) cells accepted along a run, in order. -/
def acceptTrace (cfg : SessionCfg) (s : GridState) :
    List GridInput → List (Nat × Nat)
  | [] => []
  | i :: rest =>
    (if tickAccepts cfg s i then [(s.tire, s.position)] else []) ++
      acceptTrace cfg (gridTick cfg s i) rest

/-- An input that neither navigates, cancels, nor aborts: plain cell
confirmation or a sensor reading. -/
def goodInput : GridInput → Bool
  | GridInput.confirm => true
  | GridInput.reading _ => true
  | _ => false

/-- The next `n` cells in row-major traversal order starting from a given
cell pointer. -/
def nextCells (pc : Nat) : Nat → Nat → Nat → List (Nat × Nat)
  | _, _, 0 => []
  | t, p, n + 1 =>
    (t, p) :: (if p + 1 < pc then nextCells pc t (p + 1) n else nextCells pc (t + 1) 0 n)

/-- All cells of a profile in row-major order: positions within each tire,
tires in order. -/
def rowMajor (tc pc : Nat) : List (Nat × Nat) :=
  (List.range tc).flatMap (fun t => (List.range pc).map (fun p => (t, p)))

/-- A concrete small profile (one tire, two positions, minimum window 1,
threshold 1, retry bound 5), used to exercise the session machine on a
closed instance. -/
def sampleCfg : SessionCfg :=
  { tireCount := 1, positionCount := 2, minCount := 1, threshold := 1,
    retryBound := 5 }

/-- A concrete single-cell profile (one tire, one position). -/
def oneCellCfg : SessionCfg :=
  { tireCount := 1, positionCount := 1, minCount := 1, threshold := 1,
    retryBound := 5 }

/-- A concrete mid-acquisition state: sampling the first cell, empty
matrix, no errors so far. -/
def samplingState : GridState :=
  { tire := 0, position := 0, matrix := fun _ => none,
    phase := SessionPhase.Sampling, sampler := ⟨[]⟩, errorCount := 0,
    saveInvoked := false }

/-- Invariant of a session run under navigation-free inputs, indexed by the
number `k` of cells accepted so far: while selecting or sampling, the cell
pointer sits at cell `k` (row-major) inside the grid; completion means all
cells were accepted; persistence is invoked exactly on completion; the
first `k` row-major slots hold values and all later slots are Unset. -/
def Inv (cfg : SessionCfg) (s : GridState) (k : Nat) : Prop :=
  (s.phase = SessionPhase.SelectCell ∨ s.phase = SessionPhase.Sampling →
    s.tire * cfg.positionCount + s.position = k ∧
    s.position < cfg.positionCount ∧ s.tire < cfg.tireCount) ∧
  (s.phase = SessionPhase.SessionComplete → k = cfg.tireCount * cfg.positionCount) ∧
  (s.saveInvoked = true ↔ s.phase = SessionPhase.SessionComplete) ∧
  (∀ i, i < k → ∃ v, s.matrix i = some v) ∧
  (∀ i, k ≤ i → s.matrix i = none)

/-! ## Sampler lemmas -/

lemma foldl_max_const (n : Nat) (c : ℚ) : (List.replicate n c).foldl max c = c := by
  induction n with
  | zero => rfl
  | succ n ih => rw [List.replicate_succ, List.foldl_cons, max_self]; exact ih

lemma foldl_min_const (n : Nat) (c : ℚ) : (List.replicate n c).foldl min c = c := by
  induction n with
  | zero => rfl
  | succ n ih => rw [List.replicate_succ, List.foldl_cons, min_self]; exact ih

lemma listMax_replicate (n : Nat) (c : ℚ) : listMax (List.replicate (n + 1) c) = c := by
  rw [List.replicate_succ]; exact foldl_max_const n c

lemma listMin_replicate (n : Nat) (c : ℚ) : listMin (List.replicate (n + 1) c) = c := by
  rw [List.replicate_succ]; exact foldl_min_const n c

lemma spread_replicate (n : Nat) (c : ℚ) : spread (List.replicate (n + 1) c) = 0 := by
  rw [spread, listMax_replicate, listMin_replicate, sub_self]

lemma mean_replicate (n : Nat) (c : ℚ) (hn : n ≠ 0) :
    mean (List.replicate n c) = c := by
  rw [mean, List.sum_replicate, List.length_replicate, nsmul_eq_mul]
  exact mul_div_cancel_left₀ c (Nat.cast_ne_zero.mpr hn)

lemma cons_replicate (m : Nat) (c : ℚ) :
    c :: List.replicate m c = List.replicate (m + 1) c :=
  (List.replicate_succ c m).symm

lemma offer_const_small (mc : Nat) (th c : ℚ) (m : Nat)
    (h : m + 1 < mc) (hcap : mc ≤ TEMP_WINDOW_CAPACITY) :
    offer mc th ⟨List.replicate m c⟩ c =
      (⟨List.replicate (m + 1) c⟩, SampleResult.Pending) := by
  have hlen : (c :: List.replicate m c).take TEMP_WINDOW_CAPACITY =
      List.replicate (m + 1) c := by
    rw [cons_replicate]
    exact List.take_of_length_le (by rw [List.length_replicate]; omega)
  simp only [offer, hlen]
  rw [if_neg (by rw [List.length_replicate]; omega)]

lemma offer_const_full (mc : Nat) (th c : ℚ) (m : Nat)
    (hmc : 1 ≤ mc) (hcap : mc ≤ TEMP_WINDOW_CAPACITY) (hfull : mc ≤ m + 1)
    (hm : m ≤ TEMP_WINDOW_CAPACITY) (hth : 0 ≤ th) :
    offer mc th ⟨List.replicate m c⟩ c =
      (⟨List.replicate (min (m + 1) TEMP_WINDOW_CAPACITY) c⟩, SampleResult.Stable c) := by
  have hlen : (c :: List.replicate m c).take TEMP_WINDOW_CAPACITY =
      List.replicate (min (m + 1) TEMP_WINDOW_CAPACITY) c := by
    rw [cons_replicate, List.take_replicate, Nat.min_comm]
  have hrec : (List.replicate (min (m + 1) TEMP_WINDOW_CAPACITY) c).take mc =
      List.replicate mc c := by
    rw [List.take_replicate, Nat.min_eq_left (by omega)]
  obtain ⟨j, hj⟩ : ∃ j, mc = j + 1 := ⟨mc - 1, by omega⟩
  simp only [offer, hlen]
  rw [if_pos (by rw [List.length_replicate]; omega), hrec, hj, spread_replicate,
    if_pos hth, ← hj, mean_replicate mc c (by omega)]

lemma offerRun_const_pending (mc : Nat) (th c : ℚ) (hcap : mc ≤ TEMP_WINDOW_CAPACITY) :
    ∀ (n m : Nat), m + n < mc →
      offerRun mc th ⟨List.replicate m c⟩ (List.replicate n c) =
        List.replicate n SampleResult.Pending := by
  intro n
  induction n with
  | zero => intro m _; rfl
  | succ n ih =>
    intro m h
    rw [List.replicate_succ]
    simp only [offerRun, offer_const_small mc th c m (by omega) hcap]
    rw [ih (m + 1) (by omega)]
    exact (List.replicate_succ _ _).symm

lemma offerRun_const_stable (mc : Nat) (th c : ℚ)
    (hmc : 1 ≤ mc) (hcap : mc ≤ TEMP_WINDOW_CAPACITY) (hth : 0 ≤ th) :
    ∀ (n m : Nat), mc ≤ m + 1 → m ≤ TEMP_WINDOW_CAPACITY →
      offerRun mc th ⟨List.replicate m c⟩ (List.replicate n c) =
        List.replicate n (SampleResult.Stable c) := by
  intro n
  induction n with
  | zero => intro m _ _; rfl
  | succ n ih =>
    intro m hfull hm
    rw [List.replicate_succ]
    simp only [offerRun, offer_const_full mc th c m hmc hcap hfull hm hth]
    rw [ih (min (m + 1) TEMP_WINDOW_CAPACITY) (by omega) (by omega)]
    exact (List.replicate_succ _ _).symm

/-- C2: for a constant sample stream at least as long as the minimum
window count, `offer` (`GetStableTemp`'s stabilization test) returns
Pending on every call before the window holds the minimum count, turns
Stable exactly at the call on which the minimum window is first reached,
and the emitted value is the arithmetic mean of the window, namely the
constant itself. -/
theorem stable_temp_constant_stream (mc n : Nat) (c th : ℚ)
    (hmc : 1 ≤ mc) (hcap : mc ≤ TEMP_WINDOW_CAPACITY) (hn : mc ≤ n) (hth : 0 ≤ th) :
    offerRun mc th ⟨[]⟩ (List.replicate n c) =
      List.replicate (mc - 1) SampleResult.Pending ++
        List.replicate (n - (mc - 1)) (SampleResult.Stable c) := by
  have hsplit : List.replicate n c =
      List.replicate (mc - 1) c ++ List.replicate (n - (mc - 1)) c := by
    rw [← List.replicate_add]; congr 1; omega
  have happ : ∀ (xs ys : List ℚ) (s : SamplerState),
      offerRun mc th s (xs ++ ys) =
        offerRun mc th s xs ++ offerRun mc th (runSampler mc th s xs) ys := by
    intro xs
    induction xs with
    | nil => intro ys s; rfl
    | cons x xs ih =>
      intro ys s
      simp only [List.cons_append, offerRun, runSampler, List.append_eq, ih]
  have hstate : ∀ (m n : Nat), m + n < mc →
      runSampler mc th ⟨List.replicate m c⟩ (List.replicate n c) =
        ⟨List.replicate (m + n) c⟩ := by
    intro m n
    induction n generalizing m with
    | zero => intro _; rfl
    | succ n ih =>
      intro h
      rw [List.replicate_succ]
      simp only [runSampler, offer_const_small mc th c m (by omega) hcap]
      rw [ih (m + 1) (by omega)]
      congr 2
      omega
  have h0 : (⟨[]⟩ : SamplerState) = ⟨List.replicate 0 c⟩ := rfl
  rw [hsplit, h0, happ, offerRun_const_pending mc th c hcap (mc - 1) 0 (by omega),
    hstate 0 (mc - 1) (by omega)]
  rw [offerRun_const_stable mc th c hmc hcap hth (n - (mc - 1)) (0 + (mc - 1))
    (by omega) (by omega)]

/-- Witness for C2 at mc = 2, threshold = 1, stream = three copies of 5. -/
theorem stable_temp_constant_stream_witness :
    (1 ≤ 2 ∧ 2 ≤ TEMP_WINDOW_CAPACITY ∧ 2 ≤ 3 ∧ (0:ℚ) ≤ 1) ∧
    offerRun 2 1 ⟨[]⟩ (List.replicate 3 (5:ℚ)) =
      List.replicate (2 - 1) SampleResult.Pending ++
        List.replicate (3 - (2 - 1)) (SampleResult.Stable 5) :=
  ⟨⟨by norm_num, by norm_num [TEMP_WINDOW_CAPACITY], by norm_num, by norm_num⟩,
    stable_temp_constant_stream 2 3 5 1 (by norm_num)
      (by norm_num [TEMP_WINDOW_CAPACITY]) (by norm_num) (by norm_num)⟩

lemma offerRun_pending_of_small (mc : Nat) (th : ℚ) (hcap : mc ≤ TEMP_WINDOW_CAPACITY) :
    ∀ (stream : List ℚ) (s : SamplerState) (i : Nat),
      s.window.length + i + 1 < mc → i < stream.length →
      (offerRun mc th s stream)[i]? = some SampleResult.Pending := by
  intro stream
  induction stream with
  | nil => intro s i _ hlen; simp at hlen
  | cons x xs ih =>
    intro s i hsmall hlen
    have hw : ((x :: s.window).take TEMP_WINDOW_CAPACITY).length =
        s.window.length + 1 := by
      rw [List.length_take]
      simp only [List.length_cons]
      omega
    have hfst : (offer mc th s x).1 = ⟨(x :: s.window).take TEMP_WINDOW_CAPACITY⟩ := by
      simp only [offer]
      split_ifs <;> rfl
    match i with
    | 0 =>
      have hsnd : (offer mc th s x).2 = SampleResult.Pending := by
        simp only [offer]
        rw [if_neg (by omega)]
      rw [offerRun]
      simpa using hsnd
    | Nat.succ j =>
      rw [offerRun]
      have : ((offer mc th s x).2 :: offerRun mc th (offer mc th s x).1 xs)[j + 1]? =
          (offerRun mc th (offer mc th s x).1 xs)[j]? := by
        simp
      rw [this]
      apply ih
      · rw [hfst]; simpa [hw] using (by omega : s.window.length + 1 + j + 1 < mc)
      · simpa using hlen

/-- C8: the stabilization sampler never emits a Stable value while its
window holds fewer than the configured minimum sample count — every offer
before the minimum is reached returns Pending. -/
theorem stable_temp_min_window (mc : Nat) (th : ℚ) (stream : List ℚ) (i : Nat)
    (hcap : mc ≤ TEMP_WINDOW_CAPACITY) (hi : i + 1 < mc) (hlen : i < stream.length) :
    (offerRun mc th ⟨[]⟩ stream)[i]? = some SampleResult.Pending :=
  offerRun_pending_of_small mc th hcap stream ⟨[]⟩ i (by simpa using hi) hlen

/-- Witness for C8 at mc = 3 on the stream [5, 7]. -/
theorem stable_temp_min_window_witness :
    (3 ≤ TEMP_WINDOW_CAPACITY ∧ 0 + 1 < 3 ∧ 0 < [(5:ℚ), 7].length) ∧
    (offerRun 3 1 ⟨[]⟩ [(5:ℚ), 7])[0]? = some SampleResult.Pending :=
  ⟨⟨by norm_num [TEMP_WINDOW_CAPACITY], by norm_num, by norm_num⟩,
    stable_temp_min_window 3 1 [5, 7] 0 (by norm_num [TEMP_WINDOW_CAPACITY])
      (by norm_num) (by norm_num)⟩

lemma offerRun_never_stable (mc : Nat) (th : ℚ) :
    ∀ (stream : List ℚ) (s : SamplerState),
      (∀ i, i < stream.length →
        (mc ≤ (runSampler mc th s (stream.take (i + 1))).window.length →
          th < spread ((runSampler mc th s (stream.take (i + 1))).window.take mc))) →
      offerRun mc th s stream = List.replicate stream.length SampleResult.Pending := by
  intro stream
  induction stream with
  | nil => intro s _; rfl
  | cons x xs ih =>
    intro s h
    have hs1 : runSampler mc th s ((x :: xs).take 1) = (offer mc th s x).1 := rfl
    have hfst : (offer mc th s x).1 = ⟨(x :: s.window).take TEMP_WINDOW_CAPACITY⟩ := by
      simp only [offer]
      split_ifs <;> rfl
    have hhead : (offer mc th s x).2 = SampleResult.Pending := by
      have h0 := h 0 (by simp)
      rw [hs1, hfst] at h0
      simp only [offer]
      split_ifs with h1 h2
      · exact absurd h2 (not_le.mpr (h0 h1))
      · rfl
      · rfl
    rw [offerRun, hhead, List.length_cons, List.replicate_succ]
    congr 1
    apply ih
    intro i hi hmcle
    have := h (i + 1) (by simpa using Nat.succ_lt_succ hi)
    rw [show (x :: xs).take (i + 1 + 1) = x :: xs.take (i + 1) from rfl] at this
    rw [show runSampler mc th s (x :: xs.take (i + 1)) =
        runSampler mc th (offer mc th s x).1 (xs.take (i + 1)) from rfl] at this
    exact this hmcle

/-- C7: for a sample stream whose most-recent-window spread always exceeds
the resolution threshold whenever the window is full enough to be tested,
the stabilization sampler never returns Stable — every call returns
Pending. -/
theorem stable_temp_unstable_stream (mc : Nat) (th : ℚ) (stream : List ℚ)
    (h : ∀ i, i < stream.length →
      (mc ≤ (runSampler mc th ⟨[]⟩ (stream.take (i + 1))).window.length →
        th < spread ((runSampler mc th ⟨[]⟩ (stream.take (i + 1))).window.take mc))) :
    offerRun mc th ⟨[]⟩ stream = List.replicate stream.length SampleResult.Pending :=
  offerRun_never_stable mc th stream ⟨[]⟩ h

/-- Witness for C7 at mc = 2, threshold = 1, on the stream [0, 10, 0]. -/
theorem stable_temp_unstable_stream_witness :
    (∀ i, i < [(0:ℚ), 10, 0].length →
      (2 ≤ (runSampler 2 1 ⟨[]⟩ ([(0:ℚ), 10, 0].take (i + 1))).window.length →
        (1:ℚ) < spread ((runSampler 2 1 ⟨[]⟩ ([(0:ℚ), 10, 0].take (i + 1))).window.take 2))) ∧
    offerRun 2 1 ⟨[]⟩ [(0:ℚ), 10, 0] =
      List.replicate [(0:ℚ), 10, 0].length SampleResult.Pending := by
  have h : ∀ i, i < [(0:ℚ), 10, 0].length →
      (2 ≤ (runSampler 2 1 ⟨[]⟩ ([(0:ℚ), 10, 0].take (i + 1))).window.length →
        (1:ℚ) < spread ((runSampler 2 1 ⟨[]⟩ ([(0:ℚ), 10, 0].take (i + 1))).window.take 2)) := by
    intro i hi
    have hi3 : i < 3 := by simpa using hi
    interval_cases i <;>
      norm_num [runSampler, offer, spread, listMax, listMin, mean, TEMP_WINDOW_CAPACITY]
  exact ⟨h, stable_temp_unstable_stream 2 1 [0, 10, 0] h⟩

/-! ## GetNextTire theorems -/

/-- C9: GetNextTire keeps the tire pointer within `[0, tireCount-1]`,
moving past either boundary is a clamped no-op returning the unchanged
boundary index, and a single advance or retreat never skips a tire. -/
theorem get_next_tire_clamped (tireCount selTire dir : Int)
    (htc : 1 ≤ tireCount) (h0 : 0 ≤ selTire) (h1 : selTire ≤ tireCount - 1)
    (hdir : dir = 1 ∨ dir = -1) :
    (0 ≤ GetNextTire tireCount selTire dir ∧
      GetNextTire tireCount selTire dir ≤ tireCount - 1) ∧
    (selTire = 0 → dir = -1 → GetNextTire tireCount selTire dir = selTire) ∧
    (selTire = tireCount - 1 → dir = 1 → GetNextTire tireCount selTire dir = selTire) ∧
    (GetNextTire tireCount selTire dir - selTire).natAbs ≤ 1 ∧
    (0 ≤ selTire + dir → selTire + dir ≤ tireCount - 1 →
      GetNextTire tireCount selTire dir = selTire + dir) := by
  rcases hdir with h | h <;> subst h <;>
    refine ⟨⟨?_, ?_⟩, fun ha hb => ?_, fun ha hb => ?_, ?_, fun ha hb => ?_⟩ <;>
    unfold GetNextTire <;> split_ifs <;> omega

/-- Witness for C9 at tireCount = 4, selTire = 2, direction = +1. -/
theorem get_next_tire_clamped_witness :
    ((1:Int) ≤ 4 ∧ (0:Int) ≤ 2 ∧ (2:Int) ≤ 4 - 1 ∧ ((1:Int) = 1 ∨ (1:Int) = -1)) ∧
    ((0 ≤ GetNextTire 4 2 1 ∧ GetNextTire 4 2 1 ≤ 4 - 1) ∧
    ((2:Int) = 0 → (1:Int) = -1 → GetNextTire 4 2 1 = 2) ∧
    ((2:Int) = 4 - 1 → (1:Int) = 1 → GetNextTire 4 2 1 = 2) ∧
    (GetNextTire 4 2 1 - 2).natAbs ≤ 1 ∧
    ((0:Int) ≤ 2 + 1 → (2:Int) + 1 ≤ 4 - 1 → GetNextTire 4 2 1 = 2 + 1)) :=
  ⟨⟨by decide, by decide, by decide, Or.inl rfl⟩,
    get_next_tire_clamped 4 2 1 (by decide) (by decide) (by decide) (Or.inl rfl)⟩

/-! ## ButtonDebouncer theorems -/

lemma buttonRun_flicker_mid (lp : Nat) (lvl : Bool) (t0 t2 : Nat) :
    ∀ (mid : List Nat) (m : UserButton),
      m.buttonLast = !lvl → m.lastChange = t0 → m.buttonPressed = lvl →
      (∀ t ∈ mid, t < t0 + BUTTON_DEBOUNCE_DELAY) →
      ∀ e ∈ (buttonRun lp m (mid.map (fun t => (!lvl, t)) ++ [(lvl, t2)])).2,
        e ≠ ButtonEvent.Pressed ∧ e ≠ ButtonEvent.Released := by
  intro mid
  induction mid with
  | nil =>
    intro m hlast hchange hconf _
    have hne : lvl ≠ m.buttonLast := by rw [hlast]; simp
    simp only [List.map_nil, List.nil_append, buttonRun, advanceButton, if_pos hne]
    intro e he
    rcases List.mem_cons.mp he with rfl | he'
    · exact ⟨by simp, by simp⟩
    · simp at he'
  | cons t ts ih =>
    intro m hlast hchange hconf hmid
    have h1 : ¬ ((!lvl) ≠ m.buttonLast) := by rw [hlast]; simp
    have h2 : ¬ ((!lvl) ≠ m.buttonPressed ∧ BUTTON_DEBOUNCE_DELAY ≤ t - m.lastChange) := by
      rw [hconf, hchange]
      rintro ⟨-, hle⟩
      have ht := hmid t (by simp)
      simp only [BUTTON_DEBOUNCE_DELAY] at ht hle
      omega
    have hmid' : ∀ u ∈ ts, u < t0 + BUTTON_DEBOUNCE_DELAY := fun u hu => hmid u (by simp [hu])
    simp only [List.map_cons, List.cons_append, buttonRun, advanceButton,
      if_neg h1, if_neg h2]
    split
    · intro e he
      rcases List.mem_cons.mp he with rfl | he'
      · exact ⟨by simp, by simp⟩
      · exact ih { m with longPressSent := true } hlast hchange hconf hmid' e he'
    · intro e he
      rcases List.mem_cons.mp he with rfl | he'
      · exact ⟨by simp, by simp⟩
      · exact ih m hlast hchange hconf hmid' e he'

/-- C3: a raw-level change that reverts to the previous level before the
20 ms debounce interval has elapsed never causes `advanceButton` (the
debounce step of `CheckButtons`) to emit Pressed or Released — the
sub-interval flicker is fully discarded. -/
theorem debounce_flicker_discarded (lp : Nat) (b : UserButton) (lvl : Bool)
    (t0 t2 : Nat) (mid : List Nat)
    (hlast : b.buttonLast = lvl) (hconf : b.buttonPressed = lvl)
    (hmid : ∀ t ∈ mid, t < t0 + BUTTON_DEBOUNCE_DELAY) :
    ∀ e ∈ (buttonRun lp b
        ((!lvl, t0) :: (mid.map (fun t => (!lvl, t)) ++ [(lvl, t2)]))).2,
      e ≠ ButtonEvent.Pressed ∧ e ≠ ButtonEvent.Released := by
  have h1 : (!lvl) ≠ b.buttonLast := by rw [hlast]; simp
  simp only [buttonRun, advanceButton, if_pos h1]
  intro e he
  rcases List.mem_cons.mp he with rfl | he'
  · exact ⟨by simp, by simp⟩
  · exact buttonRun_flicker_mid lp lvl t0 t2 mid
      { b with buttonLast := !lvl, lastChange := t0 } rfl rfl hconf hmid e he'

/-- Witness for C3: a press-like blip at t=100 reverting at t=115, within
the 20 ms debounce interval. -/
theorem debounce_flicker_discarded_witness :
    ((⟨false, 0, false, 0, false⟩ : UserButton).buttonLast = false ∧
      (⟨false, 0, false, 0, false⟩ : UserButton).buttonPressed = false ∧
      (∀ t ∈ [105, 110], t < 100 + BUTTON_DEBOUNCE_DELAY)) ∧
    (∀ e ∈ (buttonRun 1000 ⟨false, 0, false, 0, false⟩
        ((!false, 100) :: ([105, 110].map (fun t => (!false, t)) ++ [(false, 115)]))).2,
      e ≠ ButtonEvent.Pressed ∧ e ≠ ButtonEvent.Released) :=
  ⟨⟨rfl, rfl, by decide⟩,
    debounce_flicker_discarded 1000 ⟨false, 0, false, 0, false⟩ false 100 115
      [105, 110] rfl rfl (by decide)⟩

/-! ## SelectionEngine theorems -/

lemma menuStep_index_lt (menu : List MenuChoice) (h1 : 1 ≤ menu.length)
    (st : SelectionState) (e : MenuEvent) (hst : st.index < menu.length) :
    (menuStep menu st e).index < menu.length := by
  cases hcr : st.confirmedResult with
  | some r => cases e <;> simp only [menuStep, hcr] <;> exact hst
  | none => cases e <;> simp only [menuStep, hcr] <;> omega

/-- C4: for every menu and any sequence of events fed through the
selection engine, the highlighted index stays within `[0, len-1]` at every
step, and movement past either end clamps with no wraparound — the same
step function serving every menu instantiation. -/
theorem menu_select_stays_in_range (menu : List MenuChoice) (st : SelectionState)
    (events : List MenuEvent) (h1 : 1 ≤ menu.length)
    (hmax : menu.length ≤ MAX_MENU_ITEMS) (hst : st.index < menu.length) :
    (∀ s ∈ menuTrace menu st events, s.index < menu.length) ∧
    (∀ s : SelectionState, s.index = menu.length - 1 →
      (menuStep menu s MenuEvent.Forward).index = s.index) ∧
    (∀ s : SelectionState, s.index = 0 →
      (menuStep menu s MenuEvent.Backward).index = 0) := by
  refine ⟨?_, ?_, ?_⟩
  · have key : ∀ (evs : List MenuEvent) (s : SelectionState), s.index < menu.length →
        ∀ x ∈ menuTrace menu s evs, x.index < menu.length := by
      intro evs
      induction evs with
      | nil =>
        intro s hs x hx
        simp only [menuTrace, List.mem_singleton] at hx
        exact hx ▸ hs
      | cons e es ihe =>
        intro s hs x hx
        rw [menuTrace] at hx
        rcases List.mem_cons.mp hx with rfl | hx'
        · exact hs
        · exact ihe (menuStep menu s e) (menuStep_index_lt menu h1 s e hs) x hx'
    exact key events st hst
  · intro s hs
    cases hcr : s.confirmedResult with
    | some r => simp only [menuStep, hcr]
    | none => simp only [menuStep, hcr]; omega
  · intro s hs
    cases hcr : s.confirmedResult with
    | some r => simp only [menuStep, hcr]; exact hs
    | none => simp only [menuStep, hcr]; omega

/-- Witness for C4 on a two-entry menu walked forward twice and backward
once. -/
theorem menu_select_stays_in_range_witness :
    (1 ≤ sampleMenu.length ∧ sampleMenu.length ≤ MAX_MENU_ITEMS ∧
      (⟨0, none⟩ : SelectionState).index < sampleMenu.length) ∧
    ((∀ s ∈ menuTrace sampleMenu ⟨0, none⟩
        [MenuEvent.Forward, MenuEvent.Forward, MenuEvent.Backward],
        s.index < sampleMenu.length) ∧
    (∀ s : SelectionState, s.index = sampleMenu.length - 1 →
      (menuStep sampleMenu s MenuEvent.Forward).index = s.index) ∧
    (∀ s : SelectionState, s.index = 0 →
      (menuStep sampleMenu s MenuEvent.Backward).index = 0)) :=
  ⟨⟨by simp [sampleMenu], by simp [sampleMenu, MAX_MENU_ITEMS], by simp [sampleMenu]⟩,
    menu_select_stays_in_range sampleMenu ⟨0, none⟩
      [MenuEvent.Forward, MenuEvent.Forward, MenuEvent.Backward]
      (by simp [sampleMenu]) (by simp [sampleMenu, MAX_MENU_ITEMS]) (by simp [sampleMenu])⟩

/-! ## GridTraversal lemmas -/

lemma cell_lt (t p tc pc : Nat) (ht : t < tc) (hp : p < pc) :
    t * pc + p < tc * pc := by
  calc t * pc + p < t * pc + pc := by omega
  _ = (t + 1) * pc := (Nat.succ_mul t pc).symm
  _ ≤ tc * pc := Nat.mul_le_mul_right pc ht

lemma tickAccepts_true (cfg : SessionCfg) (s : GridState) (i : GridInput)
    (h : tickAccepts cfg s i = true) :
    s.phase = SessionPhase.Sampling ∧ ∃ v val,
      i = GridInput.reading (some v) ∧
      (offer cfg.minCount cfg.threshold s.sampler v).2 = SampleResult.Stable val := by
  cases i with
  | reading r =>
    cases r with
    | none => simp [tickAccepts] at h
    | some v =>
      cases hph : s.phase with
      | Sampling =>
        simp only [tickAccepts, hph] at h
        cases hof : (offer cfg.minCount cfg.threshold s.sampler v).2 with
        | Pending => rw [hof] at h; cases h
        | Stable val => exact ⟨rfl, v, val, rfl, hof⟩
      | SelectCell => simp only [tickAccepts, hph] at h; cases h
      | SessionComplete => simp only [tickAccepts, hph] at h; cases h
      | Aborted => simp only [tickAccepts, hph] at h; cases h
  | confirm => simp [tickAccepts] at h
  | navTire d => simp [tickAccepts] at h
  | cancel => simp [tickAccepts] at h
  | abort => simp [tickAccepts] at h

lemma Inv_of_fields (cfg : SessionCfg) (s s' : GridState) (k : Nat)
    (hInv : Inv cfg s k)
    (ht : s'.tire = s.tire) (hp : s'.position = s.position)
    (hm : s'.matrix = s.matrix) (hsv : s'.saveInvoked = s.saveInvoked)
    (hold : s.phase = SessionPhase.SelectCell ∨ s.phase = SessionPhase.Sampling)
    (hnew : s'.phase = SessionPhase.SelectCell ∨ s'.phase = SessionPhase.Sampling) :
    Inv cfg s' k := by
  obtain ⟨hptr, hcomp, hsave, hm1, hm2⟩ := hInv
  refine ⟨fun _ => by rw [ht, hp]; exact hptr hold, ?_, ?_,
    fun i hi => by rw [hm]; exact hm1 i hi, fun i hi => by rw [hm]; exact hm2 i hi⟩
  · intro h
    rcases hnew with h' | h' <;> exact absurd (h'.symm.trans h) (by simp)
  · rw [hsv]
    constructor
    · intro hs
      have hc := hsave.mp hs
      rcases hold with h' | h' <;> exact absurd (h'.symm.trans hc) (by simp)
    · intro hs
      rcases hnew with h' | h' <;> exact absurd (h'.symm.trans hs) (by simp)

lemma grid_run_spec (cfg : SessionCfg) :
    ∀ (inputs : List GridInput) (s : GridState) (k : Nat),
      (∀ j ∈ inputs, goodInput j = true) → Inv cfg s k →
      Inv cfg (gridRun cfg s inputs) (k + (acceptTrace cfg s inputs).length) ∧
      acceptTrace cfg s inputs =
        (nextCells cfg.positionCount s.tire s.position
          (cfg.tireCount * cfg.positionCount - k)).take
          (acceptTrace cfg s inputs).length := by
  intro inputs
  induction inputs with
  | nil =>
    intro s k _ hInv
    exact ⟨by simpa using hInv, rfl⟩
  | cons i rest ih =>
    intro s k hgood hInv
    have hgi : goodInput i = true := hgood i (List.mem_cons_self i rest)
    have hgrest : ∀ j ∈ rest, goodInput j = true :=
      fun j hj => hgood j (List.mem_cons_of_mem i hj)
    obtain ⟨t, p, mat, ph, smp, ec, sv⟩ := s
    by_cases hacc : tickAccepts cfg ⟨t, p, mat, ph, smp, ec, sv⟩ i = true
    · -- accepting tick: a Stable reading writes the current cell
      obtain ⟨hph, v, val, rfl, hof⟩ :=
        tickAccepts_true cfg ⟨t, p, mat, ph, smp, ec, sv⟩ i hacc
      have hph' : ph = SessionPhase.Sampling := hph
      subst hph'
      obtain ⟨hptr, hcomp, hsave, hm1, hm2⟩ := hInv
      obtain ⟨htp, hpos, htire⟩ :
          t * cfg.positionCount + p = k ∧ p < cfg.positionCount ∧
            t < cfg.tireCount := hptr (Or.inr rfl)
      have hkn : k < cfg.tireCount * cfg.positionCount := by
        have h := cell_lt t p cfg.tireCount cfg.positionCount htire hpos
        omega
      have hsv : sv = false := by
        cases hsvv : sv
        · rfl
        · exact absurd (hsave.mp hsvv) (by simp)
      subst hsv
      have hof' : (offer cfg.minCount cfg.threshold smp v).2 =
          SampleResult.Stable val := hof
      rcases hof2 : offer cfg.minCount cfg.threshold smp v with ⟨sp, r⟩
      rw [hof2] at hof'
      have hr : r = SampleResult.Stable val := hof'
      subst hr
      have hw : gridTick cfg ⟨t, p, mat, SessionPhase.Sampling, smp, ec, false⟩
          (GridInput.reading (some v)) =
          advanceCell cfg
            (writeCell cfg ⟨t, p, mat, SessionPhase.Sampling, smp, ec, false⟩ val) := by
        show applySample cfg ⟨t, p, mat, SessionPhase.Sampling, smp, ec, false⟩ v = _
        simp only [applySample, hof2]
      have htr : acceptTrace cfg ⟨t, p, mat, SessionPhase.Sampling, smp, ec, false⟩
          (GridInput.reading (some v) :: rest) =
          (t, p) :: acceptTrace cfg
            (advanceCell cfg
              (writeCell cfg ⟨t, p, mat, SessionPhase.Sampling, smp, ec, false⟩ val))
            rest := by
        simp [acceptTrace, hacc, hw]
      have hrun : gridRun cfg ⟨t, p, mat, SessionPhase.Sampling, smp, ec, false⟩
          (GridInput.reading (some v) :: rest) =
          gridRun cfg
            (advanceCell cfg
              (writeCell cfg ⟨t, p, mat, SessionPhase.Sampling, smp, ec, false⟩ val))
            rest := by
        show gridRun cfg (gridTick cfg ⟨t, p, mat, SessionPhase.Sampling, smp, ec, false⟩
          (GridInput.reading (some v))) rest = _
        rw [hw]
      have hwm : ∀ j,
          (writeCell cfg ⟨t, p, mat, SessionPhase.Sampling, smp, ec, false⟩ val).matrix j =
          if j = k then some val else mat j := by
        intro j
        simp only [writeCell]
        rw [htp]
      have hwm1 : ∀ j, j < k + 1 →
          ∃ w, (writeCell cfg ⟨t, p, mat, SessionPhase.Sampling, smp, ec, false⟩
            val).matrix j = some w := by
        intro j hj
        rw [hwm j]
        by_cases hjk : j = k
        · exact ⟨val, by rw [if_pos hjk]⟩
        · rw [if_neg hjk]
          exact hm1 j (by omega)
      have hwm2 : ∀ j, k + 1 ≤ j →
          (writeCell cfg ⟨t, p, mat, SessionPhase.Sampling, smp, ec, false⟩
            val).matrix j = none := by
        intro j hj
        rw [hwm j, if_neg (by omega)]
        exact hm2 j (by omega)
      have hlen : ∀ z : List (Nat × Nat), k + ((t, p) :: z).length = (k + 1) + z.length := by
        intro z
        simp only [List.length_cons]
        omega
      by_cases hpp : p + 1 < cfg.positionCount
      · -- next position within the same tire
        have hadv : advanceCell cfg
            (writeCell cfg ⟨t, p, mat, SessionPhase.Sampling, smp, ec, false⟩ val) =
            ⟨t, p + 1,
              (writeCell cfg ⟨t, p, mat, SessionPhase.Sampling, smp, ec, false⟩
                val).matrix,
              SessionPhase.SelectCell, ⟨[]⟩, 0, false⟩ := by
          simp only [advanceCell]
          rw [if_pos (show (writeCell cfg
            ⟨t, p, mat, SessionPhase.Sampling, smp, ec, false⟩ val).position + 1 <
            cfg.positionCount from hpp)]
          rfl
        have hInv' : Inv cfg
            (advanceCell cfg
              (writeCell cfg ⟨t, p, mat, SessionPhase.Sampling, smp, ec, false⟩ val))
            (k + 1) := by
          rw [hadv]
          refine ⟨fun _ => ⟨?_, ?_, ?_⟩, fun h => ?_, ⟨fun h => ?_, fun h => ?_⟩,
            hwm1, hwm2⟩
          · show t * cfg.positionCount + (p + 1) = k + 1
            omega
          · show p + 1 < cfg.positionCount
            exact hpp
          · show t < cfg.tireCount
            exact htire
          · exact absurd (show SessionPhase.SelectCell = SessionPhase.SessionComplete
              from h) (by simp)
          · exact absurd (show false = true from h) (by simp)
          · exact absurd (show SessionPhase.SelectCell = SessionPhase.SessionComplete
              from h) (by simp)
        obtain ⟨ihInv, ihtr⟩ := ih (advanceCell cfg
          (writeCell cfg ⟨t, p, mat, SessionPhase.Sampling, smp, ec, false⟩ val))
          (k + 1) hgrest hInv'
        constructor
        · rw [hrun, htr, hlen]
          exact ihInv
        · show acceptTrace cfg ⟨t, p, mat, SessionPhase.Sampling, smp, ec, false⟩
            (GridInput.reading (some v) :: rest) =
            (nextCells cfg.positionCount t p
              (cfg.tireCount * cfg.positionCount - k)).take
              (acceptTrace cfg ⟨t, p, mat, SessionPhase.Sampling, smp, ec, false⟩
                (GridInput.reading (some v) :: rest)).length
          rw [htr]
          have hnk : cfg.tireCount * cfg.positionCount - k =
              (cfg.tireCount * cfg.positionCount - (k + 1)) + 1 := by omega
          rw [hnk]
          simp only [nextCells]
          rw [if_pos hpp, List.length_cons, List.take_succ_cons]
          congr 1
          have h1 : (advanceCell cfg
              (writeCell cfg ⟨t, p, mat, SessionPhase.Sampling, smp, ec, false⟩
                val)).tire = t := by
            rw [hadv]
          have h2 : (advanceCell cfg
              (writeCell cfg ⟨t, p, mat, SessionPhase.Sampling, smp, ec, false⟩
                val)).position = p + 1 := by
            rw [hadv]
          rw [h1, h2] at ihtr
          exact ihtr
      · by_cases htt : t + 1 < cfg.tireCount
        · -- first position of the next tire
          have hadv : advanceCell cfg
              (writeCell cfg ⟨t, p, mat, SessionPhase.Sampling, smp, ec, false⟩ val) =
              ⟨t + 1, 0,
                (writeCell cfg ⟨t, p, mat, SessionPhase.Sampling, smp, ec, false⟩
                  val).matrix,
                SessionPhase.SelectCell, ⟨[]⟩, 0, false⟩ := by
            simp only [advanceCell]
            rw [if_neg (show ¬ ((writeCell cfg
              ⟨t, p, mat, SessionPhase.Sampling, smp, ec, false⟩ val).position + 1 <
              cfg.positionCount) from hpp),
              if_pos (show (writeCell cfg
                ⟨t, p, mat, SessionPhase.Sampling, smp, ec, false⟩ val).tire + 1 <
                cfg.tireCount from htt)]
            rfl
          have hInv' : Inv cfg
              (advanceCell cfg
                (writeCell cfg ⟨t, p, mat, SessionPhase.Sampling, smp, ec, false⟩ val))
              (k + 1) := by
            rw [hadv]
            refine ⟨fun _ => ⟨?_, ?_, ?_⟩, fun h => ?_, ⟨fun h => ?_, fun h => ?_⟩,
              hwm1, hwm2⟩
            · show (t + 1) * cfg.positionCount + 0 = k + 1
              rw [Nat.succ_mul]
              omega
            · show 0 < cfg.positionCount
              omega
            · show t + 1 < cfg.tireCount
              exact htt
            · exact absurd (show SessionPhase.SelectCell = SessionPhase.SessionComplete
                from h) (by simp)
            · exact absurd (show false = true from h) (by simp)
            · exact absurd (show SessionPhase.SelectCell = SessionPhase.SessionComplete
                from h) (by simp)
          obtain ⟨ihInv, ihtr⟩ := ih (advanceCell cfg
            (writeCell cfg ⟨t, p, mat, SessionPhase.Sampling, smp, ec, false⟩ val))
            (k + 1) hgrest hInv'
          constructor
          · rw [hrun, htr, hlen]
            exact ihInv
          · show acceptTrace cfg ⟨t, p, mat, SessionPhase.Sampling, smp, ec, false⟩
              (GridInput.reading (some v) :: rest) =
              (nextCells cfg.positionCount t p
                (cfg.tireCount * cfg.positionCount - k)).take
                (acceptTrace cfg ⟨t, p, mat, SessionPhase.Sampling, smp, ec, false⟩
                  (GridInput.reading (some v) :: rest)).length
            rw [htr]
            have hnk : cfg.tireCount * cfg.positionCount - k =
                (cfg.tireCount * cfg.positionCount - (k + 1)) + 1 := by omega
            rw [hnk]
            simp only [nextCells]
            rw [if_neg hpp, List.length_cons, List.take_succ_cons]
            congr 1
            have h1 : (advanceCell cfg
                (writeCell cfg ⟨t, p, mat, SessionPhase.Sampling, smp, ec, false⟩
                  val)).tire = t + 1 := by
              rw [hadv]
            have h2 : (advanceCell cfg
                (writeCell cfg ⟨t, p, mat, SessionPhase.Sampling, smp, ec, false⟩
                  val)).position = 0 := by
              rw [hadv]
            rw [h1, h2] at ihtr
            exact ihtr
        · -- last cell: the session completes
          have hkn1 : k + 1 = cfg.tireCount * cfg.positionCount := by
            have hmul : (t + 1) * cfg.positionCount =
                t * cfg.positionCount + cfg.positionCount := Nat.succ_mul _ _
            have htc : t + 1 = cfg.tireCount := by omega
            rw [← htc, hmul]
            omega
          have hadv : advanceCell cfg
              (writeCell cfg ⟨t, p, mat, SessionPhase.Sampling, smp, ec, false⟩ val) =
              ⟨t, p,
                (writeCell cfg ⟨t, p, mat, SessionPhase.Sampling, smp, ec, false⟩
                  val).matrix,
                SessionPhase.SessionComplete, smp, ec, true⟩ := by
            simp only [advanceCell]
            rw [if_neg (show ¬ ((writeCell cfg
              ⟨t, p, mat, SessionPhase.Sampling, smp, ec, false⟩ val).position + 1 <
              cfg.positionCount) from hpp),
              if_neg (show ¬ ((writeCell cfg
                ⟨t, p, mat, SessionPhase.Sampling, smp, ec, false⟩ val).tire + 1 <
                cfg.tireCount) from htt)]
            rfl
          have hInv' : Inv cfg
              (advanceCell cfg
                (writeCell cfg ⟨t, p, mat, SessionPhase.Sampling, smp, ec, false⟩ val))
              (k + 1) := by
            rw [hadv]
            refine ⟨fun h => ?_, fun _ => hkn1, ⟨fun _ => rfl, fun _ => rfl⟩,
              hwm1, hwm2⟩
            rcases h with h | h <;> simp at h
          obtain ⟨ihInv, ihtr⟩ := ih (advanceCell cfg
            (writeCell cfg ⟨t, p, mat, SessionPhase.Sampling, smp, ec, false⟩ val))
            (k + 1) hgrest hInv'
          constructor
          · rw [hrun, htr, hlen]
            exact ihInv
          · show acceptTrace cfg ⟨t, p, mat, SessionPhase.Sampling, smp, ec, false⟩
              (GridInput.reading (some v) :: rest) =
              (nextCells cfg.positionCount t p
                (cfg.tireCount * cfg.positionCount - k)).take
                (acceptTrace cfg ⟨t, p, mat, SessionPhase.Sampling, smp, ec, false⟩
                  (GridInput.reading (some v) :: rest)).length
            rw [htr]
            have hnk : cfg.tireCount * cfg.positionCount - k =
                (cfg.tireCount * cfg.positionCount - (k + 1)) + 1 := by omega
            have hz : cfg.tireCount * cfg.positionCount - (k + 1) = 0 := by omega
            have htr0 : acceptTrace cfg
                (advanceCell cfg
                  (writeCell cfg ⟨t, p, mat, SessionPhase.Sampling, smp, ec, false⟩
                    val)) rest = [] := by
              rw [hz] at ihtr
              simpa [nextCells] using ihtr
            rw [hnk, hz]
            simp only [nextCells]
            rw [if_neg hpp, List.length_cons, List.take_succ_cons]
            congr 1
            rw [htr0]
            simp [nextCells]
    · -- non-accepting tick: nothing is written and the pointer is unchanged
      have hacc' : tickAccepts cfg ⟨t, p, mat, ph, smp, ec, sv⟩ i = false := by
        simpa using hacc
      have htr : acceptTrace cfg ⟨t, p, mat, ph, smp, ec, sv⟩ (i :: rest) =
          acceptTrace cfg (gridTick cfg ⟨t, p, mat, ph, smp, ec, sv⟩ i) rest := by
        simp [acceptTrace, hacc']
      have hrun : gridRun cfg ⟨t, p, mat, ph, smp, ec, sv⟩ (i :: rest) =
          gridRun cfg (gridTick cfg ⟨t, p, mat, ph, smp, ec, sv⟩ i) rest := rfl
      have hstep : (gridTick cfg ⟨t, p, mat, ph, smp, ec, sv⟩ i).tire = t ∧
          (gridTick cfg ⟨t, p, mat, ph, smp, ec, sv⟩ i).position = p ∧
          Inv cfg (gridTick cfg ⟨t, p, mat, ph, smp, ec, sv⟩ i) k := by
        cases ph with
        | SessionComplete => exact ⟨rfl, rfl, hInv⟩
        | Aborted => exact ⟨rfl, rfl, hInv⟩
        | SelectCell =>
          cases i with
          | navTire d => exact absurd hgi (by simp [goodInput])
          | cancel => exact absurd hgi (by simp [goodInput])
          | abort => exact absurd hgi (by simp [goodInput])
          | confirm =>
            have hg : gridTick cfg ⟨t, p, mat, SessionPhase.SelectCell, smp, ec, sv⟩
                GridInput.confirm =
                ⟨t, p, mat, SessionPhase.Sampling, ⟨[]⟩, 0, sv⟩ := rfl
            rw [hg]
            exact ⟨rfl, rfl, Inv_of_fields cfg
              ⟨t, p, mat, SessionPhase.SelectCell, smp, ec, sv⟩
              ⟨t, p, mat, SessionPhase.Sampling, ⟨[]⟩, 0, sv⟩ k hInv rfl rfl rfl rfl
              (Or.inl rfl) (Or.inr rfl)⟩
          | reading r =>
            have hg : gridTick cfg ⟨t, p, mat, SessionPhase.SelectCell, smp, ec, sv⟩
                (GridInput.reading r) =
                ⟨t, p, mat, SessionPhase.SelectCell, smp, ec, sv⟩ := by
              cases r <;> rfl
            rw [hg]
            exact ⟨rfl, rfl, hInv⟩
        | Sampling =>
          cases i with
          | navTire d => exact absurd hgi (by simp [goodInput])
          | cancel => exact absurd hgi (by simp [goodInput])
          | abort => exact absurd hgi (by simp [goodInput])
          | confirm => exact ⟨rfl, rfl, hInv⟩
          | reading r =>
            cases r with
            | none =>
              have hg : gridTick cfg ⟨t, p, mat, SessionPhase.Sampling, smp, ec, sv⟩
                  (GridInput.reading none) =
                  sensorErrorTick cfg ⟨t, p, mat, SessionPhase.Sampling, smp, ec, sv⟩ :=
                rfl
              rw [hg]
              by_cases hrb : cfg.retryBound ≤ ec + 1
              · have hg2 : sensorErrorTick cfg
                    ⟨t, p, mat, SessionPhase.Sampling, smp, ec, sv⟩ =
                    ⟨t, p, mat, SessionPhase.SelectCell, ⟨[]⟩, 0, sv⟩ := by
                  simp only [sensorErrorTick]
                  rw [if_pos hrb]
                rw [hg2]
                exact ⟨rfl, rfl, Inv_of_fields cfg
                  ⟨t, p, mat, SessionPhase.Sampling, smp, ec, sv⟩
                  ⟨t, p, mat, SessionPhase.SelectCell, ⟨[]⟩, 0, sv⟩ k hInv rfl rfl rfl
                  rfl (Or.inr rfl) (Or.inl rfl)⟩
              · have hg2 : sensorErrorTick cfg
                    ⟨t, p, mat, SessionPhase.Sampling, smp, ec, sv⟩ =
                    ⟨t, p, mat, SessionPhase.Sampling, smp, ec + 1, sv⟩ := by
                  simp only [sensorErrorTick]
                  rw [if_neg hrb]
                rw [hg2]
                exact ⟨rfl, rfl, Inv_of_fields cfg
                  ⟨t, p, mat, SessionPhase.Sampling, smp, ec, sv⟩
                  ⟨t, p, mat, SessionPhase.Sampling, smp, ec + 1, sv⟩ k hInv rfl rfl rfl
                  rfl (Or.inr rfl) (Or.inr rfl)⟩
            | some v =>
              have hg : gridTick cfg ⟨t, p, mat, SessionPhase.Sampling, smp, ec, sv⟩
                  (GridInput.reading (some v)) =
                  applySample cfg ⟨t, p, mat, SessionPhase.Sampling, smp, ec, sv⟩ v :=
                rfl
              rw [hg]
              rcases hof2 : offer cfg.minCount cfg.threshold smp v with ⟨sp, r2⟩
              cases r2 with
              | Pending =>
                have hg2 : applySample cfg
                    ⟨t, p, mat, SessionPhase.Sampling, smp, ec, sv⟩ v =
                    ⟨t, p, mat, SessionPhase.Sampling, sp, ec, sv⟩ := by
                  simp only [applySample, hof2]
                rw [hg2]
                exact ⟨rfl, rfl, Inv_of_fields cfg
                  ⟨t, p, mat, SessionPhase.Sampling, smp, ec, sv⟩
                  ⟨t, p, mat, SessionPhase.Sampling, sp, ec, sv⟩ k hInv rfl rfl rfl
                  rfl (Or.inr rfl) (Or.inr rfl)⟩
              | Stable val =>
                have htrue : tickAccepts cfg ⟨t, p, mat, SessionPhase.Sampling, smp, ec, sv⟩
                    (GridInput.reading (some v)) = true := by
                  simp [tickAccepts, hof2]
                rw [htrue] at hacc'
                cases hacc'
      obtain ⟨ht', hp', hInv'⟩ := hstep
      obtain ⟨ihInv, ihtr⟩ := ih (gridTick cfg ⟨t, p, mat, ph, smp, ec, sv⟩ i) k
        hgrest hInv'
      constructor
      · rw [hrun, htr]
        exact ihInv
      · show acceptTrace cfg ⟨t, p, mat, ph, smp, ec, sv⟩ (i :: rest) =
          (nextCells cfg.positionCount t p
            (cfg.tireCount * cfg.positionCount - k)).take
            (acceptTrace cfg ⟨t, p, mat, ph, smp, ec, sv⟩ (i :: rest)).length
        rw [htr]
        rw [ht', hp'] at ihtr
        exact ihtr

lemma nextCells_length (pc : Nat) :
    ∀ (c t p : Nat), (nextCells pc t p c).length = c := by
  intro c
  induction c with
  | zero => intro t p; rfl
  | succ c ihc =>
    intro t p
    simp only [nextCells, List.length_cons]
    split_ifs <;> rw [ihc]

lemma nextCells_row (pc : Nat) :
    ∀ (j p : Nat), p + j = pc → 1 ≤ j → ∀ (t m : Nat),
      nextCells pc t p (j + m) =
        ((List.range j).map (fun q => (t, p + q))) ++ nextCells pc (t + 1) 0 m := by
  intro j
  induction j with
  | zero => intro p _ h1; exact absurd h1 (by omega)
  | succ j ihj =>
    intro p hp _ t m
    have hc : j + 1 + m = (j + m) + 1 := by omega
    rw [hc]
    simp only [nextCells]
    cases Nat.eq_zero_or_pos j with
    | inl hj0 =>
      subst hj0
      have hpc : ¬ (p + 1 < pc) := by omega
      rw [if_neg hpc]
      simp [List.range_succ]
    | inr hjpos =>
      have hlt : p + 1 < pc := by omega
      rw [if_pos hlt, ihj (p + 1) (by omega) hjpos t m,
        List.range_succ_eq_map, List.map_cons, List.map_map, List.cons_append]
      have hfun : ((fun q => (t, p + q)) ∘ Nat.succ) = (fun q => (t, p + 1 + q)) := by
        funext q
        simp only [Function.comp]
        congr 1
        omega
      rw [hfun]
      simp

lemma nextCells_rowMajor (pc : Nat) (hpc : 1 ≤ pc) :
    ∀ (tc t : Nat), nextCells pc t 0 (tc * pc) =
      (List.range tc).flatMap (fun i => (List.range pc).map (fun q => (t + i, q))) := by
  intro tc
  induction tc with
  | zero => intro t; simp [nextCells]
  | succ tc ihtc =>
    intro t
    have h1 : (tc + 1) * pc = pc + tc * pc := by rw [Nat.succ_mul]; omega
    rw [h1, nextCells_row pc pc 0 (by omega) (by omega) t (tc * pc), ihtc (t + 1),
      List.range_succ_eq_map, List.flatMap_cons, List.flatMap_map]
    have hfun2 : (fun i => List.map (fun q => (t + 1 + i, q)) (List.range pc)) =
        (fun a => List.map (fun q => (t + Nat.succ a, q)) (List.range pc)) := by
      funext a
      have hq2 : (fun q : Nat => (t + 1 + a, q)) = (fun q : Nat => (t + Nat.succ a, q)) := by
        funext q
        congr 1
        omega
      rw [hq2]
    rw [hfun2]
    congr 1
    have hq : (fun q : Nat => (t, 0 + q)) = (fun q : Nat => (t + 0, q)) := by
      funext q
      simp
    rw [hq]

lemma nextCells_eq_rowMajor (tc pc : Nat) (hpc : 1 ≤ pc) :
    nextCells pc 0 0 (tc * pc) = rowMajor tc pc := by
  rw [nextCells_rowMajor pc hpc tc 0, rowMajor]
  have hfun : (fun i => (List.range pc).map (fun q => (0 + i, q))) =
      (fun t => (List.range pc).map (fun p => (t, p))) := by
    funext i
    simp
  rw [hfun]

lemma rowMajor_eq_product (tc pc : Nat) :
    rowMajor tc pc = (List.range tc) ×ˢ (List.range pc) := rfl

lemma rowMajor_length (tc pc : Nat) : (rowMajor tc pc).length = tc * pc := by
  rw [rowMajor_eq_product, List.length_product, List.length_range, List.length_range]

lemma rowMajor_nodup (tc pc : Nat) : (rowMajor tc pc).Nodup := by
  rw [rowMajor_eq_product]
  exact List.Nodup.product (List.nodup_range tc) (List.nodup_range pc)

lemma initGrid_Inv (cfg : SessionCfg) (htc1 : 1 ≤ cfg.tireCount)
    (hpc1 : 1 ≤ cfg.positionCount) : Inv cfg initGrid 0 := by
  refine ⟨fun _ => ⟨?_, ?_, ?_⟩, fun h => ?_, ⟨fun h => ?_, fun h => ?_⟩, ?_, ?_⟩
  · show 0 * cfg.positionCount + 0 = 0
    simp
  · show (0:Nat) < cfg.positionCount
    omega
  · show (0:Nat) < cfg.tireCount
    omega
  · exact absurd (show SessionPhase.SelectCell = SessionPhase.SessionComplete
      from h) (by simp)
  · exact absurd (show false = true from h) (by simp)
  · exact absurd (show SessionPhase.SelectCell = SessionPhase.SessionComplete
      from h) (by simp)
  · intro i hi
    exact absurd hi (by omega)
  · intro i _
    rfl

lemma gridTick_abort (cfg : SessionCfg) (s : GridState)
    (h : s.phase = SessionPhase.SelectCell ∨ s.phase = SessionPhase.Sampling) :
    gridTick cfg s GridInput.abort = { s with phase := SessionPhase.Aborted } := by
  obtain ⟨t, p, mat, ph, smp, ec, sv⟩ := s
  rcases h with h | h
  · have hp' : ph = SessionPhase.SelectCell := h
    subst hp'
    rfl
  · have hp' : ph = SessionPhase.Sampling := h
    subst hp'
    rfl

lemma gridRun_terminal (cfg : SessionCfg) :
    ∀ (inputs : List GridInput) (s : GridState),
      s.phase = SessionPhase.Aborted → gridRun cfg s inputs = s := by
  intro inputs
  induction inputs with
  | nil => intro s _; rfl
  | cons i rest ihr =>
    intro s hs
    have hg : gridTick cfg s i = s := by
      obtain ⟨t, p, mat, ph, smp, ec, sv⟩ := s
      have hp' : ph = SessionPhase.Aborted := hs
      subst hp'
      rfl
    show gridRun cfg (gridTick cfg s i) rest = s
    rw [hg]
    exact ihr s hs

/-- C1: for any profile with 1-6 tires and 1-3 positions, a measurement
session driven only by cell confirmations and sensor readings (no
navigation, no cancel, no abort) that reaches SessionComplete has accepted
exactly `tireCount * positionCount` distinct cells, exactly once each, in
row-major order over positions within each tire, and every one of those
ReadingMatrix slots holds a value. -/
theorem measure_all_tires_session (cfg : SessionCfg) (inputs : List GridInput)
    (htc1 : 1 ≤ cfg.tireCount) (htc6 : cfg.tireCount ≤ 6)
    (hpc1 : 1 ≤ cfg.positionCount) (hpc3 : cfg.positionCount ≤ 3)
    (hgood : ∀ j ∈ inputs, goodInput j = true)
    (hdone : (gridRun cfg initGrid inputs).phase = SessionPhase.SessionComplete) :
    acceptTrace cfg initGrid inputs = rowMajor cfg.tireCount cfg.positionCount ∧
    (acceptTrace cfg initGrid inputs).length = cfg.tireCount * cfg.positionCount ∧
    (acceptTrace cfg initGrid inputs).Nodup ∧
    (∀ i, i < cfg.tireCount * cfg.positionCount →
      ∃ v, (gridRun cfg initGrid inputs).matrix i = some v) := by
  obtain ⟨hInvF, htrace⟩ :=
    grid_run_spec cfg inputs initGrid 0 hgood (initGrid_Inv cfg htc1 hpc1)
  obtain ⟨hptrF, hcompF, hsaveF, hm1F, hm2F⟩ := hInvF
  have hlen0 : 0 + (acceptTrace cfg initGrid inputs).length =
      cfg.tireCount * cfg.positionCount := hcompF hdone
  have hlen : (acceptTrace cfg initGrid inputs).length =
      cfg.tireCount * cfg.positionCount := by omega
  have htrace' : acceptTrace cfg initGrid inputs =
      rowMajor cfg.tireCount cfg.positionCount := by
    rw [htrace, hlen]
    show List.take (cfg.tireCount * cfg.positionCount)
      (nextCells cfg.positionCount 0 0 (cfg.tireCount * cfg.positionCount - 0)) = _
    rw [Nat.sub_zero, nextCells_eq_rowMajor cfg.tireCount cfg.positionCount hpc1]
    exact List.take_of_length_le
      (le_of_eq (rowMajor_length cfg.tireCount cfg.positionCount))
  refine ⟨htrace', hlen, ?_, ?_⟩
  · rw [htrace']
    exact rowMajor_nodup cfg.tireCount cfg.positionCount
  · intro i hi
    exact hm1F i (by omega)

/-- Witness for C1: a one-tire one-position profile completed by one
confirmation and one stable reading. -/
theorem measure_all_tires_session_witness :
    (1 ≤ oneCellCfg.tireCount ∧ oneCellCfg.tireCount ≤ 6 ∧
      1 ≤ oneCellCfg.positionCount ∧ oneCellCfg.positionCount ≤ 3 ∧
      (∀ j ∈ [GridInput.confirm, GridInput.reading (some 2)], goodInput j = true) ∧
      (gridRun oneCellCfg initGrid
        [GridInput.confirm, GridInput.reading (some 2)]).phase =
        SessionPhase.SessionComplete) ∧
    (acceptTrace oneCellCfg initGrid [GridInput.confirm, GridInput.reading (some 2)] =
        rowMajor oneCellCfg.tireCount oneCellCfg.positionCount ∧
      (acceptTrace oneCellCfg initGrid
        [GridInput.confirm, GridInput.reading (some 2)]).length =
        oneCellCfg.tireCount * oneCellCfg.positionCount ∧
      (acceptTrace oneCellCfg initGrid
        [GridInput.confirm, GridInput.reading (some 2)]).Nodup ∧
      (∀ i, i < oneCellCfg.tireCount * oneCellCfg.positionCount →
        ∃ v, (gridRun oneCellCfg initGrid
          [GridInput.confirm, GridInput.reading (some 2)]).matrix i = some v)) := by
  have hdone : (gridRun oneCellCfg initGrid
      [GridInput.confirm, GridInput.reading (some 2)]).phase =
      SessionPhase.SessionComplete := by
    norm_num [gridRun, gridTick, selectCellTick, samplingTick, applySample, offer,
      advanceCell, writeCell, initGrid, oneCellCfg, spread, listMax, listMin,
      TEMP_WINDOW_CAPACITY]
  exact ⟨⟨by decide, by decide, by decide, by decide, by decide, hdone⟩,
    measure_all_tires_session oneCellCfg
      [GridInput.confirm, GridInput.reading (some 2)]
      (by decide) (by decide) (by decide) (by decide) (by decide) hdone⟩

/-- C5: aborting mid-session leaves the machine in the terminal Aborted
state, modifies no ReadingMatrix cell (in particular every cell beyond the
already-accepted ones is still Unset), never invokes the persistence
collaborator for the partial session, and ignores all further input. -/
theorem abort_discards_partial_session (cfg : SessionCfg) (pre : List GridInput)
    (htc1 : 1 ≤ cfg.tireCount) (hpc1 : 1 ≤ cfg.positionCount)
    (hgood : ∀ j ∈ pre, goodInput j = true)
    (hlive : (gridRun cfg initGrid pre).phase = SessionPhase.SelectCell ∨
      (gridRun cfg initGrid pre).phase = SessionPhase.Sampling) :
    (gridTick cfg (gridRun cfg initGrid pre) GridInput.abort).phase =
      SessionPhase.Aborted ∧
    (gridTick cfg (gridRun cfg initGrid pre) GridInput.abort).saveInvoked = false ∧
    (gridTick cfg (gridRun cfg initGrid pre) GridInput.abort).matrix =
      (gridRun cfg initGrid pre).matrix ∧
    (∀ i, i < (acceptTrace cfg initGrid pre).length →
      ∃ v, (gridTick cfg (gridRun cfg initGrid pre) GridInput.abort).matrix i =
        some v) ∧
    (∀ i, (acceptTrace cfg initGrid pre).length ≤ i →
      (gridTick cfg (gridRun cfg initGrid pre) GridInput.abort).matrix i = none) ∧
    (∀ more, gridRun cfg
      (gridTick cfg (gridRun cfg initGrid pre) GridInput.abort) more =
      gridTick cfg (gridRun cfg initGrid pre) GridInput.abort) := by
  obtain ⟨hInvF, -⟩ :=
    grid_run_spec cfg pre initGrid 0 hgood (initGrid_Inv cfg htc1 hpc1)
  obtain ⟨hptrF, hcompF, hsaveF, hm1F, hm2F⟩ := hInvF
  have habort : gridTick cfg (gridRun cfg initGrid pre) GridInput.abort =
      { gridRun cfg initGrid pre with phase := SessionPhase.Aborted } :=
    gridTick_abort cfg _ hlive
  have hsvF : (gridRun cfg initGrid pre).saveInvoked = false := by
    cases hb : (gridRun cfg initGrid pre).saveInvoked
    · rfl
    · rcases hlive with hp' | hp' <;>
        exact absurd (hp'.symm.trans (hsaveF.mp hb)) (by simp)
  refine ⟨by rw [habort], ?_, by rw [habort], ?_, ?_, ?_⟩
  · rw [habort]
    exact hsvF
  · intro i hi
    rw [habort]
    exact hm1F i (by omega)
  · intro i hi
    rw [habort]
    exact hm2F i (by omega)
  · intro more
    exact gridRun_terminal cfg more _ (by rw [habort])

/-- Witness for C5: a one-tire two-position profile, aborted after the
first cell has been accepted. -/
theorem abort_discards_partial_session_witness :
    (1 ≤ sampleCfg.tireCount ∧ 1 ≤ sampleCfg.positionCount ∧
      (∀ j ∈ [GridInput.confirm, GridInput.reading (some 3)], goodInput j = true) ∧
      ((gridRun sampleCfg initGrid
          [GridInput.confirm, GridInput.reading (some 3)]).phase =
          SessionPhase.SelectCell ∨
        (gridRun sampleCfg initGrid
          [GridInput.confirm, GridInput.reading (some 3)]).phase =
          SessionPhase.Sampling)) ∧
    ((gridTick sampleCfg (gridRun sampleCfg initGrid
        [GridInput.confirm, GridInput.reading (some 3)]) GridInput.abort).phase =
      SessionPhase.Aborted ∧
    (gridTick sampleCfg (gridRun sampleCfg initGrid
        [GridInput.confirm, GridInput.reading (some 3)])
        GridInput.abort).saveInvoked = false ∧
    (gridTick sampleCfg (gridRun sampleCfg initGrid
        [GridInput.confirm, GridInput.reading (some 3)]) GridInput.abort).matrix =
      (gridRun sampleCfg initGrid
        [GridInput.confirm, GridInput.reading (some 3)]).matrix ∧
    (∀ i, i < (acceptTrace sampleCfg initGrid
        [GridInput.confirm, GridInput.reading (some 3)]).length →
      ∃ v, (gridTick sampleCfg (gridRun sampleCfg initGrid
        [GridInput.confirm, GridInput.reading (some 3)])
        GridInput.abort).matrix i = some v) ∧
    (∀ i, (acceptTrace sampleCfg initGrid
        [GridInput.confirm, GridInput.reading (some 3)]).length ≤ i →
      (gridTick sampleCfg (gridRun sampleCfg initGrid
        [GridInput.confirm, GridInput.reading (some 3)])
        GridInput.abort).matrix i = none) ∧
    (∀ more, gridRun sampleCfg
      (gridTick sampleCfg (gridRun sampleCfg initGrid
        [GridInput.confirm, GridInput.reading (some 3)]) GridInput.abort) more =
      gridTick sampleCfg (gridRun sampleCfg initGrid
        [GridInput.confirm, GridInput.reading (some 3)]) GridInput.abort)) := by
  have hlive : (gridRun sampleCfg initGrid
      [GridInput.confirm, GridInput.reading (some 3)]).phase =
      SessionPhase.SelectCell ∨
      (gridRun sampleCfg initGrid
        [GridInput.confirm, GridInput.reading (some 3)]).phase =
        SessionPhase.Sampling := by
    left
    norm_num [gridRun, gridTick, selectCellTick, samplingTick, applySample, offer,
      advanceCell, writeCell, initGrid, sampleCfg, spread, listMax, listMin,
      TEMP_WINDOW_CAPACITY]
  exact ⟨⟨by decide, by decide, by decide, hlive⟩,
    abort_discards_partial_session sampleCfg
      [GridInput.confirm, GridInput.reading (some 3)]
      (by decide) (by decide) (by decide) hlive⟩

/-- C6: while Sampling, a sensor Error tick never feeds the sampler and
never touches the matrix or the pointer; below the retry bound the machine
stays Sampling with the error counted (retry on the next tick), and once
the bound is reached the cell acquisition is abandoned back to SelectCell
with the current cell exactly as it was (Unset). -/
theorem sensor_error_retry_bounded (cfg : SessionCfg) (s : GridState)
    (hph : s.phase = SessionPhase.Sampling) :
    (gridTick cfg s (GridInput.reading none)).matrix = s.matrix ∧
    (gridTick cfg s (GridInput.reading none)).tire = s.tire ∧
    (gridTick cfg s (GridInput.reading none)).position = s.position ∧
    (gridTick cfg s (GridInput.reading none)).saveInvoked = s.saveInvoked ∧
    (s.errorCount + 1 < cfg.retryBound →
      (gridTick cfg s (GridInput.reading none)).sampler = s.sampler ∧
      (gridTick cfg s (GridInput.reading none)).phase = SessionPhase.Sampling ∧
      (gridTick cfg s (GridInput.reading none)).errorCount = s.errorCount + 1) ∧
    (cfg.retryBound ≤ s.errorCount + 1 →
      (gridTick cfg s (GridInput.reading none)).phase = SessionPhase.SelectCell ∧
      (gridTick cfg s (GridInput.reading none)).matrix
          (s.tire * cfg.positionCount + s.position) =
        s.matrix (s.tire * cfg.positionCount + s.position)) := by
  obtain ⟨t, p, mat, ph, smp, ec, sv⟩ := s
  have hp' : ph = SessionPhase.Sampling := hph
  subst hp'
  have hg : gridTick cfg ⟨t, p, mat, SessionPhase.Sampling, smp, ec, sv⟩
      (GridInput.reading none) =
      sensorErrorTick cfg ⟨t, p, mat, SessionPhase.Sampling, smp, ec, sv⟩ := rfl
  rw [hg]
  by_cases hrb : cfg.retryBound ≤ ec + 1
  · have hg2 : sensorErrorTick cfg ⟨t, p, mat, SessionPhase.Sampling, smp, ec, sv⟩ =
        ⟨t, p, mat, SessionPhase.SelectCell, ⟨[]⟩, 0, sv⟩ := by
      simp only [sensorErrorTick]
      rw [if_pos hrb]
    rw [hg2]
    refine ⟨rfl, rfl, rfl, rfl, fun h => ?_, fun _ => ⟨rfl, rfl⟩⟩
    have h' : ec + 1 < cfg.retryBound := h
    exact absurd hrb (by omega)
  · have hg2 : sensorErrorTick cfg ⟨t, p, mat, SessionPhase.Sampling, smp, ec, sv⟩ =
        ⟨t, p, mat, SessionPhase.Sampling, smp, ec + 1, sv⟩ := by
      simp only [sensorErrorTick]
      rw [if_neg hrb]
    rw [hg2]
    exact ⟨rfl, rfl, rfl, rfl, fun _ => ⟨rfl, rfl, rfl⟩, fun h => absurd h hrb⟩

/-- Witness for C6: the sampling state with no errors yet, under the
retry bound 5. -/
theorem sensor_error_retry_bounded_witness :
    samplingState.phase = SessionPhase.Sampling ∧
    ((gridTick sampleCfg samplingState (GridInput.reading none)).matrix =
      samplingState.matrix ∧
    (gridTick sampleCfg samplingState (GridInput.reading none)).tire =
      samplingState.tire ∧
    (gridTick sampleCfg samplingState (GridInput.reading none)).position =
      samplingState.position ∧
    (gridTick sampleCfg samplingState (GridInput.reading none)).saveInvoked =
      samplingState.saveInvoked ∧
    (samplingState.errorCount + 1 < sampleCfg.retryBound →
      (gridTick sampleCfg samplingState (GridInput.reading none)).sampler =
        samplingState.sampler ∧
      (gridTick sampleCfg samplingState (GridInput.reading none)).phase =
        SessionPhase.Sampling ∧
      (gridTick sampleCfg samplingState (GridInput.reading none)).errorCount =
        samplingState.errorCount + 1) ∧
    (sampleCfg.retryBound ≤ samplingState.errorCount + 1 →
      (gridTick sampleCfg samplingState (GridInput.reading none)).phase =
        SessionPhase.SelectCell ∧
      (gridTick sampleCfg samplingState (GridInput.reading none)).matrix
          (samplingState.tire * sampleCfg.positionCount + samplingState.position) =
        samplingState.matrix
          (samplingState.tire * sampleCfg.positionCount + samplingState.position))) :=
  ⟨rfl, sensor_error_retry_bounded sampleCfg samplingState rfl⟩

/-! ## Device startup state -/

/-- C10: at startup, before any button event is processed, the device's
top-level mode state `deviceState` is initialized to 0, which is the
`DISPLAY_MENU` code, so the first interaction shown is the main menu. -/
theorem device_state_starts_at_main_menu : deviceState = DISPLAY_MENU := rfl

end Yamura
